import Mathlib

/-
A Lean model of the D-Mark parser from `src/lib.rs` of denisdefreyne/d-mark-rust.

Every definition below is a direct translation of the corresponding Rust item
(names are kept). Mutable parser state (`ParserContent`) is passed explicitly;
fallible functions return a `PResult` that records the resulting state both on
success and on failure, mirroring the fact that the Rust parser keeps its
mutated state when an `Err` is returned. The Rust `unreachable` branches that
execute the `panic` macro are modelled by the `PResult.crash` constructor, so
that a crash is distinguishable from an ordinary `Error` result. Loops and
recursion are modelled with an explicit fuel argument; `PResult.outOfFuel` is
returned only when the fuel runs out, and all theorems either quantify over
fuel or use a concrete fuel that is large enough for the concrete input.

`HashMap<String, String>` (from Rust's standard library, storing attributes) is
modelled as an association list whose `insert` replaces the value of an
existing key and otherwise appends, which is the observable behaviour of
`HashMap::insert`.
-/

namespace DMark

/-- The error enumeration from `enum Error` in src/lib.rs. -/
inductive Error where
  | UnexpectedEOF
  | UnexpectedEOL
  | UnexpectedEscapeSequence
  | UnexpectedRightBrace
  | UnexpectedContentAfterBlockName
  | ExpectedLeftBrace
  | ExpectedRightBrace
  | ExpectedHash
  | ExpectedSpace
  | InvalidCharInName
deriving DecidableEq

/-- The `{:?}` (Debug) rendering of an `Error`, as produced by `#[derive(Debug)]`. -/
def errorDebugStr : Error → String
  | .UnexpectedEOF => "UnexpectedEOF"
  | .UnexpectedEOL => "UnexpectedEOL"
  | .UnexpectedEscapeSequence => "UnexpectedEscapeSequence"
  | .UnexpectedRightBrace => "UnexpectedRightBrace"
  | .UnexpectedContentAfterBlockName => "UnexpectedContentAfterBlockName"
  | .ExpectedLeftBrace => "ExpectedLeftBrace"
  | .ExpectedRightBrace => "ExpectedRightBrace"
  | .ExpectedHash => "ExpectedHash"
  | .ExpectedSpace => "ExpectedSpace"
  | .InvalidCharInName => "InvalidCharInName"

/-- `struct Pos`: index into the character sequence plus zero-based column and line. -/
structure Pos where
  idx : Nat
  col_nr : Nat
  line_nr : Nat
deriving DecidableEq

/-- `Pos::new`. -/
def Pos.new : Pos := ⟨0, 0, 0⟩

/-- `Pos::advance`: move one character forward; a newline resets the column and
bumps the line, any other character bumps the column. The index always grows. -/
def Pos.advance (p : Pos) (nl : Bool) : Pos :=
  if nl then { idx := p.idx + 1, col_nr := 0, line_nr := p.line_nr + 1 }
  else { idx := p.idx + 1, col_nr := p.col_nr + 1, line_nr := p.line_nr }

/-- `struct ParserContent`: the input characters plus the cursor. -/
structure ParserContent where
  chars : List Char
  pos : Pos
deriving DecidableEq

/-- `ParserContent::peek`. -/
def ParserContent.peek (s : ParserContent) : Option Char := s.chars[s.pos.idx]?

/-- `ParserContent::peek2`. -/
def ParserContent.peek2 (s : ParserContent) : Option Char := s.chars[s.pos.idx + 1]?

/-- `ParserContent::advance`: advance the position, treating the current
character (if any) as a newline exactly when it is one. -/
def ParserContent.advance (s : ParserContent) : ParserContent :=
  if s.peek = some '\n' then { s with pos := s.pos.advance true }
  else { s with pos := s.pos.advance false }

/-- `ParserContent::is_eof`. -/
def ParserContent.is_eof (s : ParserContent) : Bool := s.peek.isNone

/-- Result of a parsing step: the Rust `Result<T, Error>` together with the
parser state left behind. `crash` models the `panic` branches, `outOfFuel` is
an artifact of the fuel-based modelling of loops. -/
inductive PResult (α : Type) where
  | ok (a : α) (s : ParserContent)
  | err (e : Error) (s : ParserContent)
  | crash (s : ParserContent)
  | outOfFuel
deriving DecidableEq

/-- Sequencing of parser steps; models `?` / method chaining on `Result`. -/
def PResult.bind {α β : Type} : PResult α → (α → ParserContent → PResult β) → PResult β
  | .ok a s, f => f a s
  | .err e s, _ => .err e s
  | .crash s, _ => .crash s
  | .outOfFuel, _ => .outOfFuel

/-- `FilterableResult::filter` from src/util.rs, applied to a `PResult`. -/
def PResult.filter {α : Type} (r : PResult α) (p : α → Bool) (e : Error) : PResult α :=
  match r with
  | .ok a s => if p a then .ok a s else .err e s
  | r => r

/-- `ParserContent::consume`: peek, then advance unconditionally, then fail
with `UnexpectedEOF` if there was no character. Note that the cursor advances
even in the failure case. -/
def ParserContent.consume (s : ParserContent) : PResult Char :=
  match s.peek with
  | some c => .ok c s.advance
  | none => .err .UnexpectedEOF s.advance

/-- `ParserContent::try_consume_char`. -/
def ParserContent.try_consume_char (s : ParserContent) (expected_c : Char) : Bool × ParserContent :=
  match s.peek with
  | some c => if c = expected_c then (true, s.advance) else (false, s)
  | none => (false, s)

/-- `Parser::is_name_head_char`. -/
def is_name_head_char (c : Char) : Bool :=
  ('a' ≤ c && c ≤ 'z') || ('A' ≤ c && c ≤ 'Z')

/-- `Parser::is_name_tail_char`. -/
def is_name_tail_char (c : Char) : Bool :=
  ('a' ≤ c && c ≤ 'z') || ('A' ≤ c && c ≤ 'Z') || c = '-' || c = '_' || ('0' ≤ c && c ≤ '9')

/-- `Parser::read_name_head`. -/
def read_name_head (s : ParserContent) : PResult Char :=
  s.consume.filter is_name_head_char .InvalidCharInName

/-- `Parser::read_left_brace`. -/
def read_left_brace (s : ParserContent) : PResult Char :=
  s.consume.filter (fun c => c = '{') .ExpectedLeftBrace

/-- `Parser::read_right_brace`. -/
def read_right_brace (s : ParserContent) : PResult Char :=
  s.consume.filter (fun c => c = '}') .ExpectedRightBrace

/-- `Parser::read_hash`. -/
def read_hash (s : ParserContent) : PResult Char :=
  s.consume.filter (fun c => c = '#') .ExpectedHash

/-- `Parser::read_space`. -/
def read_space (s : ParserContent) : PResult Char :=
  s.consume.filter (fun c => c = ' ') .ExpectedSpace

/-- `Parser::read_name_tail_char`: peek a name-tail character and advance past
it, or leave the state alone. -/
def read_name_tail_char (s : ParserContent) : Option Char × ParserContent :=
  match s.peek with
  | some c => if is_name_tail_char c then (some c, s.advance) else (none, s)
  | none => (none, s)

/-- The `while let` loop inside `Parser::read_name`. -/
def read_name_loop (fuel : Nat) (acc : String) (s : ParserContent) : PResult String :=
  match fuel with
  | 0 => .outOfFuel
  | fuel + 1 =>
    match read_name_tail_char s with
    | (some c, s1) => read_name_loop fuel (acc.push c) s1
    | (none, s1) => .ok acc s1

/-- `Parser::read_name`. -/
def read_name (fuel : Nat) (s : ParserContent) : PResult String :=
  (read_name_head s).bind fun c s1 => read_name_loop fuel (String.mk [c]) s1

/-- `Parser::read_attribute_key`. -/
def read_attribute_key (fuel : Nat) (s : ParserContent) : PResult String :=
  read_name fuel s

/-- `Parser::read_attribute_value`: the accumulation loop, with `acc` the
`res` string built so far (started empty by the caller). -/
def read_attribute_value (fuel : Nat) (acc : String) (s : ParserContent) : PResult String :=
  match fuel with
  | 0 => .outOfFuel
  | fuel + 1 =>
    match s.peek with
    | none => .err .UnexpectedEOF s
    | some '%' =>
      match s.advance.peek with
      | none => .err .UnexpectedEOF s.advance
      | some '%' => read_attribute_value fuel (acc.push '%') s.advance.advance
      | some ']' => read_attribute_value fuel (acc.push ']') s.advance.advance
      | some ',' => read_attribute_value fuel (acc.push ',') s.advance.advance
      | some '\n' => .err .UnexpectedEOL s.advance
      | some _ => .err .UnexpectedEscapeSequence s.advance
    | some ']' => .ok acc s
    | some ',' => .ok acc s
    | some '\n' => .err .UnexpectedEOL s
    | some c => read_attribute_value fuel (acc.push c) s.advance

/-- The attribute mapping: model of `HashMap<String, String>`. -/
abbrev AttrMap := List (String × String)

/-- Model of `HashMap::insert`: replace the value of an existing key, or add
the binding when the key is absent. -/
def AttrMap.insert : AttrMap → String → String → AttrMap
  | [], k, v => [(k, v)]
  | p :: rest, k, v => if p.1 = k then (k, v) :: rest else p :: AttrMap.insert rest k v

/-- Model of `HashMap::get`: look up a key. -/
def AttrMap.get? : AttrMap → String → Option String
  | [], _ => none
  | p :: rest, k => if p.1 = k then some p.2 else AttrMap.get? rest k

/-- The `loop` inside `Parser::read_attributes`: read one `key` or
`key=value` pair, store it in the map, and dispatch on the following
character: `]` ends the loop, `,` continues it, end-of-input propagates
`UnexpectedEOF` from `consume`, and anything else hits the Rust `panic`
branch (modelled as `crash`). -/
def read_attributes_loop (fuel : Nat) (attributes : AttrMap) (s : ParserContent) :
    PResult AttrMap :=
  match fuel with
  | 0 => .outOfFuel
  | fuel + 1 =>
    (read_attribute_key fuel s).bind fun key s1 =>
    (match s1.try_consume_char '=' with
     | (true, s2) =>
       (read_attribute_value fuel "" s2).bind fun v s3 =>
         .ok (AttrMap.insert attributes key v) s3
     | (false, s2) => .ok (AttrMap.insert attributes key key) s2).bind fun attributes2 s3 =>
    match s3.consume with
    | .ok c s4 =>
      if c = ']' then .ok attributes2 s4
      else if c = ',' then read_attributes_loop fuel attributes2 s4
      else .crash s4
    | .err e s4 => .err e s4
    | .crash s4 => .crash s4
    | .outOfFuel => .outOfFuel

/-- `Parser::read_attributes`. -/
def read_attributes (fuel : Nat) (s : ParserContent) : PResult AttrMap :=
  match s.try_consume_char '[' with
  | (false, s1) => .ok [] s1
  | (true, s1) =>
    match s1.try_consume_char ']' with
    | (true, s2) => .ok [] s2
    | (false, s2) => read_attributes_loop fuel [] s2

/-- `enum Node`, with `ElementNode` and `StringNode` inlined: an element has a
name, attributes and children; `Str` is the Rust `Node::String` variant. -/
inductive Node where
  | Element (name : String) (attributes : AttrMap) (children : List Node)
  | Str (content : String)

mutual

/-- Whether a tree contains a `Str` node whose content is empty. -/
def Node.hasEmptyText : Node → Bool
  | .Str content => content == ""
  | .Element _ _ children => hasEmptyTextList children
termination_by structural n => n

/-- `Node.hasEmptyText` over a list of nodes. -/
def hasEmptyTextList : List Node → Bool
  | [] => false
  | n :: ns => n.hasEmptyText || hasEmptyTextList ns
termination_by structural l => l

end

/-- `Parser::read_string_node`: accumulate plain characters until a newline,
`%`, `}` or end-of-input, then emit a single string node. -/
def read_string_node (fuel : Nat) (acc : String) (s : ParserContent) : PResult Node :=
  match fuel with
  | 0 => .outOfFuel
  | fuel + 1 =>
    match s.peek with
    | none => .ok (.Str acc) s
    | some '\n' => .ok (.Str acc) s
    | some '%' => .ok (.Str acc) s
    | some '}' => .ok (.Str acc) s
    | some c => read_string_node fuel (acc.push c) s.advance

/-- `Parser::read_escaped_char`. -/
def read_escaped_char (s : ParserContent) : PResult Node :=
  match s.peek with
  | none => .err .UnexpectedEOF s
  | some c => .ok (.Str (String.mk [c])) s.advance

/-- `Parser::read_end_of_inline_content`: after an inline run, accept a
newline or end-of-input, reject `}` with `UnexpectedRightBrace`, and `panic`
(crash) on anything else. -/
def read_end_of_inline_content (s : ParserContent) : PResult Unit :=
  match s.consume with
  | .err _ s1 => .ok () s1
  | .ok '\n' s1 => .ok () s1
  | .ok '}' s1 => .err .UnexpectedRightBrace s1
  | .ok _ s1 => .crash s1
  | .crash s1 => .crash s1
  | .outOfFuel => .outOfFuel

mutual

/-- `Parser::read_inline_nodes`: the `while let` loop, with `acc` the nodes
collected so far (started empty by the caller). Stops, without consuming the
terminator, at a newline, `}`, or end-of-input. -/
def read_inline_nodes (fuel : Nat) (acc : List Node) (s : ParserContent) :
    PResult (List Node) :=
  match fuel with
  | 0 => .outOfFuel
  | fuel + 1 =>
    match s.peek with
    | none => .ok acc s
    | some '\n' => .ok acc s
    | some '}' => .ok acc s
    | some '%' =>
      (read_percent_body fuel s).bind fun n s1 => read_inline_nodes fuel (acc ++ [n]) s1
    | some _ =>
      (read_string_node fuel "" s).bind fun n s1 => read_inline_nodes fuel (acc ++ [n]) s1
termination_by structural fuel

/-- `Parser::read_percent_body`: skip the `%`, then an escapable character
(`%`, `}`, `#`) yields an escaped literal, end-of-input is `UnexpectedEOF`,
and anything else starts an inline element. -/
def read_percent_body (fuel : Nat) (s : ParserContent) : PResult Node :=
  match fuel with
  | 0 => .outOfFuel
  | fuel + 1 =>
    match s.advance.peek with
    | none => .err .UnexpectedEOF s.advance
    | some '%' => read_escaped_char s.advance
    | some '}' => read_escaped_char s.advance
    | some '#' => read_escaped_char s.advance
    | some _ => read_inline_element_node fuel s.advance
termination_by structural fuel

/-- `Parser::read_inline_element_node`. -/
def read_inline_element_node (fuel : Nat) (s : ParserContent) : PResult Node :=
  match fuel with
  | 0 => .outOfFuel
  | fuel + 1 =>
    (read_name fuel s).bind fun name s1 =>
    (read_attributes fuel s1).bind fun attributes s2 =>
    (read_left_brace s2).bind fun _ s3 =>
    (read_inline_nodes fuel [] s3).bind fun content s4 =>
    (read_right_brace s4).bind fun _ s5 =>
    .ok (.Element name attributes content) s5
termination_by structural fuel

end

/-- `Parser::read_block_element_node`, returning the element's name,
attributes and header-line children. -/
def read_block_element_node (fuel : Nat) (s : ParserContent) :
    PResult (String × AttrMap × List Node) :=
  match fuel with
  | 0 => .outOfFuel
  | fuel + 1 =>
    (read_hash s).bind fun _ s1 =>
    (read_name fuel s1).bind fun name s2 =>
    (read_attributes fuel s2).bind fun attributes s3 =>
    match s3.consume with
    | .err _ s4 => .ok (name, attributes, []) s4
    | .ok '\n' s4 => .ok (name, attributes, []) s4
    | .ok ' ' s4 =>
      (read_inline_nodes fuel [] s4).bind fun nodes s5 =>
      (read_end_of_inline_content s5).bind fun _ s6 =>
      .ok (name, attributes, nodes) s6
    | .ok _ s4 => .err .UnexpectedContentAfterBlockName s4
    | .crash s4 => .crash s4
    | .outOfFuel => .outOfFuel

/-- The scanning loop of `Parser::try_read_blank_line`, recursing over the
character suffix starting at `idx`: skip spaces; a newline or end-of-input
yields `some` of the index one past it, anything else yields `none`. -/
def try_read_blank_line_aux : List Char → Nat → Option Nat
  | [], idx => some (idx + 1)
  | ' ' :: rest, idx => try_read_blank_line_aux rest (idx + 1)
  | '\n' :: _, idx => some (idx + 1)
  | _ :: _, _ => none

/-- `Parser::try_read_blank_line`. -/
def try_read_blank_line (s : ParserContent) : Option Nat :=
  try_read_blank_line_aux (s.chars.drop s.pos.idx) s.pos.idx

/-- `Parser::read_indentation`: consume `2 × indent` spaces. -/
def read_indentation (indent : Nat) (s : ParserContent) : PResult Unit :=
  match indent with
  | 0 => .ok () s
  | n + 1 =>
    (read_space s).bind fun _ s1 =>
    (read_space s1).bind fun _ s2 =>
    read_indentation n s2

/-- The space-counting loop of `Parser::detect_indentation`. -/
def detect_indentation_aux : List Char → Nat
  | ' ' :: rest => detect_indentation_aux rest + 1
  | _ => 0

/-- `Parser::detect_indentation`: leading spaces divided by two. -/
def detect_indentation (s : ParserContent) : Nat :=
  detect_indentation_aux (s.chars.drop s.pos.idx) / 2

/-- `Parser::try_read_block_start`. -/
def try_read_block_start (s : ParserContent) : Bool :=
  match s.peek with
  | some '#' =>
    match s.peek2 with
    | some c => is_name_head_char c
    | none => false
  | _ => false

mutual

/-- `Parser::read_block_with_children`. -/
def read_block_with_children (fuel : Nat) (indent : Nat) (s : ParserContent) : PResult Node :=
  match fuel with
  | 0 => .outOfFuel
  | fuel + 1 =>
    (read_block_element_node fuel s).bind fun elt s1 =>
    block_children_loop fuel indent elt.1 elt.2.1 elt.2.2 0 s1
termination_by structural fuel

/-- The `while` loop of `Parser::read_block_with_children`: `children` is
`res.children`, `pending_blanks` the blank-line counter. A blank line is
skipped by jumping the cursor; otherwise a dedent ends the loop, a nested
block start recurses, and anything else is continuation inline content,
preceded by one separator newline node (when children exist) and one newline
node per pending blank. -/
def block_children_loop (fuel : Nat) (indent : Nat) (name : String) (attributes : AttrMap)
    (children : List Node) (pending_blanks : Nat) (s : ParserContent) : PResult Node :=
  match fuel with
  | 0 => .outOfFuel
  | fuel + 1 =>
    if s.is_eof then .ok (.Element name attributes children) s
    else
      match try_read_blank_line s with
      | some idx =>
        block_children_loop fuel indent name attributes children (pending_blanks + 1)
          { s with pos := ⟨idx, 0, s.pos.line_nr + 1⟩ }
      | none =>
        if detect_indentation s < indent + 1 then .ok (.Element name attributes children) s
        else
          (read_indentation (indent + 1) s).bind fun _ s1 =>
          if try_read_block_start s1 then
            (read_block_with_children fuel (indent + 1) s1).bind fun child s2 =>
            block_children_loop fuel indent name attributes (children ++ [child])
              pending_blanks s2
          else
            (read_inline_nodes fuel [] s1).bind fun nodes s2 =>
            (read_end_of_inline_content s2).bind fun _ s3 =>
            block_children_loop fuel indent name attributes
              (children ++ (if children.isEmpty then [] else [.Str "\n"])
                ++ List.replicate pending_blanks (.Str "\n") ++ nodes) 0 s3
termination_by structural fuel

end

/-- The blank-line-skipping loop at the top of `Parser::run`. -/
def run_skip_blank_lines (fuel : Nat) (s : ParserContent) : PResult Unit :=
  match fuel with
  | 0 => .outOfFuel
  | fuel + 1 =>
    if s.is_eof then .ok () s
    else
      match try_read_blank_line s with
      | some idx => run_skip_blank_lines fuel { s with pos := ⟨idx, 0, s.pos.line_nr + 1⟩ }
      | none => .ok () s

/-- The block-collecting loop at the bottom of `Parser::run`. -/
def run_blocks_loop (fuel : Nat) (acc : List Node) (s : ParserContent) : PResult (List Node) :=
  match fuel with
  | 0 => .outOfFuel
  | fuel + 1 =>
    if s.is_eof then .ok acc s
    else
      (read_block_with_children fuel 0 s).bind fun n s1 =>
      run_blocks_loop fuel (acc ++ [n]) s1

namespace Parser

/-- `Parser::new`. -/
def new (input : String) : ParserContent := ⟨input.toList, Pos.new⟩

/-- `Parser::run`. -/
def run (fuel : Nat) (s : ParserContent) : PResult (List Node) :=
  (run_skip_blank_lines fuel s).bind fun _ s1 => run_blocks_loop fuel [] s1

end Parser

/-- `struct ErrorWithContext`. -/
structure ErrorWithContext where
  error : Error
  pos : Pos
  line0 : Option String
  line1 : Option String

/-- Split a character list at every newline (the newlines are dropped). -/
def split_newlines : List Char → List (List Char)
  | [] => [[]]
  | '\n' :: rest => [] :: split_newlines rest
  | c :: rest =>
    match split_newlines rest with
    | l :: ls => (c :: l) :: ls
    | [] => [[c]]

/-- Drop one carriage return from the end of a line, as `str::lines` does. -/
def strip_cr (l : List Char) : List Char :=
  if l.getLast? = some '\r' then l.dropLast else l

/-- Rust's `str::lines`: split on newlines, dropping a trailing carriage
return from each line, and not producing a final empty line for input that
ends in a newline. -/
def str_lines (input : String) : List String :=
  let parts := (split_newlines input.toList).map fun l => String.mk (strip_cr l)
  if input.toList = [] then []
  else if input.toList.getLast? = some '\n' then parts.dropLast
  else parts

/-- The result of `Parser::call`: the parsed nodes, or an error with context.
`crash` again models a Rust `panic` escaping `call`. -/
inductive CallResult where
  | ok (nodes : List Node)
  | err (e : ErrorWithContext)
  | crash
  | outOfFuel

/-- `Parser::call`: run the parser and, on failure, attach the final parser
position and up to two context lines from the input. -/
def Parser.call (fuel : Nat) (input : String) : CallResult :=
  match Parser.run fuel (Parser.new input) with
  | .ok nodes _ => .ok nodes
  | .err e s1 =>
    let lines := str_lines input
    if s1.pos.line_nr > 0 then
      .err ⟨e, s1.pos, lines[s1.pos.line_nr - 1]?, lines[s1.pos.line_nr]?⟩
    else
      .err ⟨e, s1.pos, none, lines[0]?⟩
  | .crash _ => .crash
  | .outOfFuel => .outOfFuel

/-- The `{:>width$}` right-alignment of the one-character marker `↑` in a
field of width `col_nr`, from the `Display` implementation. -/
def pad_arrow (width : Nat) : String :=
  String.mk (List.replicate (width - 1) ' ') ++ "↑"

/-- Decimal digits of `n`, most significant first; the first argument is
fuel (`n + 1` suffices since `n / 10 < n` for positive `n`). -/
def nat_digits (fuel n : Nat) : List Char :=
  match fuel with
  | 0 => []
  | fuel + 1 =>
    if n < 10 then [Char.ofNat (48 + n)]
    else nat_digits fuel (n / 10) ++ [Char.ofNat (48 + n % 10)]

/-- The decimal rendering of a number, as produced by Rust's `{}` formatting
of `usize` (kernel-computable model of `toString`). -/
def nat_to_string (n : Nat) : String :=
  String.mk (nat_digits (n + 1) n)

/-- Whether `p` is a prefix of `s` (kernel-computable model of
`String.startsWith`). -/
def string_starts_with (s p : String) : Bool :=
  p.toList.isPrefixOf s.toList

/-- The `Display` implementation for `ErrorWithContext`: the message names the
error kind and the position exactly as stored (`pos.line_nr` and
`pos.col_nr`, both zero-based), then shows the context lines and a marker
under the failing column. -/
def ErrorWithContext.render (e : ErrorWithContext) : String :=
  let color_red := "\x1B[31m"
  let color_reset := "\x1B[0m"
  ("parse error at line " ++ nat_to_string e.pos.line_nr ++ ", column "
      ++ nat_to_string e.pos.col_nr ++ ": #" ++ errorDebugStr e.error ++ "\n\n")
    ++ ((match e.line0 with | some line => line ++ "\n" | none => "")
      ++ ((e.line1.getD "" ++ "\n")
        ++ (color_red ++ pad_arrow e.pos.col_nr ++ color_reset)))

/-- The error kind with which `Parser::call` fails, when it fails. -/
def call_error_kind (fuel : Nat) (input : String) : Option Error :=
  match Parser.call fuel input with
  | .err e => some e.error
  | _ => none

/-- The rendered error message of a failing `Parser::call`, when it fails. -/
def call_render (fuel : Nat) (input : String) : Option String :=
  match Parser.call fuel input with
  | .err e => some e.render
  | _ => none

end DMark

/-! ## General lemmas about the model -/

namespace DMark

theorem read_string_node_ok_len :
    ∀ (fuel : Nat) (acc : String) (s : ParserContent) (n : Node) (s' : ParserContent),
      read_string_node fuel acc s = .ok n s' →
      ∃ str : String, n = .Str str ∧ acc.length ≤ str.length := by
  intro fuel
  induction fuel with
  | zero => intro acc s n s' h; simp [read_string_node] at h
  | succ fuel ih =>
    intro acc s n s' h
    rw [read_string_node] at h
    split at h
    · exact ⟨acc, by cases h; exact ⟨rfl, le_refl _⟩⟩
    · exact ⟨acc, by cases h; exact ⟨rfl, le_refl _⟩⟩
    · exact ⟨acc, by cases h; exact ⟨rfl, le_refl _⟩⟩
    · exact ⟨acc, by cases h; exact ⟨rfl, le_refl _⟩⟩
    · obtain ⟨str, hstr, hlen⟩ := ih _ _ _ _ h
      refine ⟨str, hstr, ?_⟩
      rw [String.length_push] at hlen
      omega

theorem read_inline_nodes_ok_peek :
    ∀ (fuel : Nat) (acc : List Node) (s : ParserContent) (res : List Node) (s' : ParserContent),
      read_inline_nodes fuel acc s = .ok res s' →
      s'.peek = none ∨ s'.peek = some '\n' ∨ s'.peek = some '}' := by
  intro fuel
  induction fuel with
  | zero => intro acc s res s' h; simp [read_inline_nodes] at h
  | succ fuel ih =>
    intro acc s res s' h
    rw [read_inline_nodes] at h
    split at h
    · cases h; left; assumption
    · cases h; right; left; next heq => exact heq
    · cases h; right; right; next heq => exact heq
    · next heq =>
      cases hp : read_percent_body fuel s with
      | ok n s1 => rw [hp] at h; simp [PResult.bind] at h; exact ih _ _ _ _ h
      | err e s1 => rw [hp] at h; simp [PResult.bind] at h
      | crash s1 => rw [hp] at h; simp [PResult.bind] at h
      | outOfFuel => rw [hp] at h; simp [PResult.bind] at h
    · next heq =>
      cases hp : read_string_node fuel "" s with
      | ok n s1 => rw [hp] at h; simp [PResult.bind] at h; exact ih _ _ _ _ h
      | err e s1 => rw [hp] at h; simp [PResult.bind] at h
      | crash s1 => rw [hp] at h; simp [PResult.bind] at h
      | outOfFuel => rw [hp] at h; simp [PResult.bind] at h

theorem read_attribute_value_ok_peek :
    ∀ (fuel : Nat) (acc : String) (s : ParserContent) (v : String) (s' : ParserContent),
      read_attribute_value fuel acc s = .ok v s' →
      s'.peek = some ']' ∨ s'.peek = some ',' := by
  intro fuel
  induction fuel with
  | zero => intro acc s v s' h; simp [read_attribute_value] at h
  | succ fuel ih =>
    intro acc s v s' h
    rw [read_attribute_value] at h
    split at h
    · simp at h
    · split at h
      · simp at h
      · exact ih _ _ _ _ h
      · exact ih _ _ _ _ h
      · exact ih _ _ _ _ h
      · simp at h
      · simp at h
    · cases h; left; next heq => exact heq
    · cases h; right; next heq => exact heq
    · simp at h
    · exact ih _ _ _ _ h

theorem AttrMap.get_insert :
    ∀ (m : AttrMap) (k v : String), (AttrMap.insert m k v).get? k = some v := by
  intro m k v
  induction m with
  | nil => simp [AttrMap.insert, AttrMap.get?]
  | cons p rest ih =>
    by_cases hp : p.1 = k
    · simp [AttrMap.insert, AttrMap.get?, hp]
    · simp [AttrMap.insert, AttrMap.get?, hp, ih]

theorem AttrMap.keys_insert :
    ∀ (m : AttrMap) (k v : String),
      (AttrMap.insert m k v).map Prod.fst =
        if k ∈ m.map Prod.fst then m.map Prod.fst else m.map Prod.fst ++ [k] := by
  intro m k v
  induction m with
  | nil => simp [AttrMap.insert]
  | cons p rest ih =>
    by_cases hp : p.1 = k
    · rw [AttrMap.insert, if_pos hp]
      simp [hp]
    · rw [AttrMap.insert, if_neg hp]
      have hne : ¬(k = p.1) := fun h => hp h.symm
      by_cases hk : k ∈ rest.map Prod.fst
      · simp [hk, ih, hne]
      · simp [hk, ih, hne]

theorem AttrMap.keys_nodup_insert :
    ∀ (m : AttrMap) (k v : String),
      (m.map Prod.fst).Nodup → ((AttrMap.insert m k v).map Prod.fst).Nodup := by
  intro m k v h
  rw [AttrMap.keys_insert]
  by_cases hk : k ∈ m.map Prod.fst
  · simpa [hk] using h
  · rw [if_neg hk]
    simp only [List.nodup_append, List.nodup_cons, List.nodup_nil, List.disjoint_singleton]
    refine ⟨h, by simp, ?_⟩
    simpa using hk

theorem read_attributes_loop_after_nodup :
    ∀ (fuel : Nat) (attributes2 : AttrMap) (s3 : ParserContent) (m : AttrMap)
      (s' : ParserContent),
      (∀ (a : AttrMap) (t : ParserContent) (m2 : AttrMap) (t' : ParserContent),
        (a.map Prod.fst).Nodup → read_attributes_loop fuel a t = .ok m2 t' →
        (m2.map Prod.fst).Nodup) →
      (attributes2.map Prod.fst).Nodup →
      (match s3.consume with
        | PResult.ok c s4 =>
          if c = ']' then PResult.ok attributes2 s4
          else if c = ',' then read_attributes_loop fuel attributes2 s4
          else PResult.crash s4
        | PResult.err e s4 => PResult.err e s4
        | PResult.crash s4 => PResult.crash s4
        | PResult.outOfFuel => PResult.outOfFuel) = PResult.ok m s' →
      (m.map Prod.fst).Nodup := by
  intro fuel attributes2 s3 m s' hih hnd2 h2
  split at h2
  · split at h2
    · cases h2; exact hnd2
    · split at h2
      · exact hih _ _ _ _ hnd2 h2
      · cases h2
  · cases h2
  · cases h2
  · cases h2

theorem read_attributes_loop_nodup :
    ∀ (fuel : Nat) (attributes : AttrMap) (s : ParserContent) (m : AttrMap)
      (s' : ParserContent),
      (attributes.map Prod.fst).Nodup →
      read_attributes_loop fuel attributes s = .ok m s' →
      (m.map Prod.fst).Nodup := by
  intro fuel
  induction fuel with
  | zero => intro attributes s m s' hnd h; simp [read_attributes_loop] at h
  | succ fuel ih =>
    intro attributes s m s' hnd h
    rw [read_attributes_loop] at h
    cases hk : read_attribute_key fuel s with
    | ok key s1 =>
      rw [hk] at h
      dsimp only [PResult.bind] at h
      cases htc : s1.try_consume_char '=' with
      | mk b s2 =>
        rw [htc] at h
        cases b with
        | true =>
          dsimp only at h
          cases hv : read_attribute_value fuel "" s2 with
          | ok v s3 =>
            rw [hv] at h
            dsimp only [PResult.bind] at h
            exact read_attributes_loop_after_nodup fuel _ s3 m s' ih
              (AttrMap.keys_nodup_insert _ _ _ hnd) h
          | err e s3 => rw [hv] at h; simp only [PResult.bind] at h; cases h
          | crash s3 => rw [hv] at h; simp only [PResult.bind] at h; cases h
          | outOfFuel => rw [hv] at h; simp only [PResult.bind] at h; cases h
        | false =>
          dsimp only [PResult.bind] at h
          exact read_attributes_loop_after_nodup fuel _ s2 m s' ih
            (AttrMap.keys_nodup_insert _ _ _ hnd) h
    | err e s1 => rw [hk] at h; dsimp only [PResult.bind] at h; cases h
    | crash s1 => rw [hk] at h; dsimp only [PResult.bind] at h; cases h
    | outOfFuel => rw [hk] at h; dsimp only [PResult.bind] at h; cases h

theorem read_attributes_nodup :
    ∀ (fuel : Nat) (s : ParserContent) (m : AttrMap) (s' : ParserContent),
      read_attributes fuel s = .ok m s' → (m.map Prod.fst).Nodup := by
  intro fuel s m s' h
  rw [read_attributes] at h
  split at h
  · cases h; simp
  · split at h
    · cases h; simp
    · exact read_attributes_loop_nodup fuel [] _ m s' (by simp) h

end DMark

/-! ## Claim theorems -/

namespace DMark

/-- Claim C5: `parseDocument("#p hi\n    ho")` succeeds and yields exactly one
element `p` with children `[Text("hi"), Text("\n"), Text("  ho")]`: the
indentation check consumes only the required two spaces, and the two surplus
spaces survive verbatim at the start of the continuation text. -/
theorem c5_theorem :
    Parser.call 100 "#p hi\n    ho" =
      .ok [.Element "p" [] [.Str "hi", .Str "\n", .Str "  ho"]] := rfl

/-- Claim C10: blank lines immediately preceding a nested block produce no
newline Text nodes before that block, and the nested block does not reset the
pending-blank counter, so the blanks surface before the next continuation
line: `parseDocument("#p a\n\n  #x b\n  c")` yields `p` with children
`[Text("a"), Element("x", \x7b\x7d, [Text("b")]), Text("\n"), Text("\n"),
Text("c")]`. -/
theorem c10_theorem :
    Parser.call 100 "#p a\n\n  #x b\n  c" =
      .ok [.Element "p" []
        [.Str "a", .Element "x" [] [.Str "b"], .Str "\n", .Str "\n", .Str "c"]] := rfl

/-- Claim C6: each of the four truncated inputs `"#p %"`, `"#p %a{"`,
`"#p[x=a"` and `"#p[x=a%"` makes the parse fail with error kind
`UnexpectedEOF` (and, the result being an error, with no partial tree). -/
theorem c6_theorem :
    call_error_kind 100 "#p %" = some .UnexpectedEOF ∧
    call_error_kind 100 "#p %a\x7b" = some .UnexpectedEOF ∧
    call_error_kind 100 "#p[x=a" = some .UnexpectedEOF ∧
    call_error_kind 100 "#p[x=a%" = some .UnexpectedEOF := ⟨rfl, rfl, rfl, rfl⟩

/-- Claim C7: every successfully parsed attribute mapping has pairwise
distinct keys; the model's `insert` binds a repeated key to the newest value;
and concretely `"#p[foo=one,foo=two] hi"` parses with the single binding
`foo ↦ "two"` taken from the last occurrence. -/
theorem c7_theorem :
    (∀ (fuel : Nat) (s : ParserContent) (m : AttrMap) (s' : ParserContent),
        read_attributes fuel s = .ok m s' → (m.map Prod.fst).Nodup) ∧
    (∀ (m : AttrMap) (k v : String), (AttrMap.insert m k v).get? k = some v) ∧
    Parser.call 100 "#p[foo=one,foo=two] hi" =
      .ok [.Element "p" [("foo", "two")] [.Str "hi"]] :=
  ⟨read_attributes_nodup, AttrMap.get_insert, rfl⟩

/-- Claim C7 witness: the distinct-keys statement applied to the parse of the
concrete attribute list `[a]`. -/
theorem c7_theorem_witness :
    (([("a", "a")] : AttrMap).map Prod.fst).Nodup :=
  c7_theorem.1 50 (Parser.new "[a]") [("a", "a")] ⟨"[a]".toList, ⟨3, 3, 0⟩⟩ rfl

/-- Claim C9: `consume` advances the cursor index by exactly one on every
call; in particular, at end-of-input it returns `Err(UnexpectedEOF)` and
still leaves the index and the column one greater than before. -/
theorem c9_theorem :
    (∀ s : ParserContent, s.advance.pos.idx = s.pos.idx + 1) ∧
    (∀ s : ParserContent,
      (∃ c : Char, s.consume = .ok c s.advance) ∨
        s.consume = .err .UnexpectedEOF s.advance) ∧
    (∀ s : ParserContent, s.peek = none →
      s.consume = .err .UnexpectedEOF s.advance ∧
      s.advance.pos.idx = s.pos.idx + 1 ∧
      s.advance.pos.col_nr = s.pos.col_nr + 1) := by
  refine ⟨?_, ?_, ?_⟩
  · intro s
    unfold ParserContent.advance
    split <;> simp [Pos.advance]
  · intro s
    unfold ParserContent.consume
    split
    · left; exact ⟨_, rfl⟩
    · right; rfl
  · intro s h
    simp [ParserContent.consume, ParserContent.advance, Pos.advance, h]

/-- Claim C9 witness: the end-of-input part of the statement at the empty
scanner state. -/
theorem c9_theorem_witness :
    (⟨[], ⟨0, 0, 0⟩⟩ : ParserContent).consume =
        .err .UnexpectedEOF (⟨[], ⟨0, 0, 0⟩⟩ : ParserContent).advance ∧
    (⟨[], ⟨0, 0, 0⟩⟩ : ParserContent).advance.pos.idx =
        (⟨[], ⟨0, 0, 0⟩⟩ : ParserContent).pos.idx + 1 ∧
    (⟨[], ⟨0, 0, 0⟩⟩ : ParserContent).advance.pos.col_nr =
        (⟨[], ⟨0, 0, 0⟩⟩ : ParserContent).pos.col_nr + 1 :=
  c9_theorem.2.2 ⟨[], ⟨0, 0, 0⟩⟩ rfl

/-- Claim C4: after `read_inline_nodes` returns successfully, the next
character can only be end-of-input, a newline, or `}`; consequently
`read_end_of_inline_content` run at that state either succeeds (newline
consumed, or end-of-input) or fails with `UnexpectedRightBrace` — it never
reaches the internal-consistency `panic` branch. -/
theorem c4_theorem :
    ∀ (fuel : Nat) (acc : List Node) (s : ParserContent) (res : List Node)
      (s' : ParserContent),
      read_inline_nodes fuel acc s = .ok res s' →
      (s'.peek = none ∨ s'.peek = some '\n' ∨ s'.peek = some '}') ∧
      (read_end_of_inline_content s' = .ok () s'.advance ∨
        read_end_of_inline_content s' = .err .UnexpectedRightBrace s'.advance) := by
  intro fuel acc s res s' h
  have hp := read_inline_nodes_ok_peek fuel acc s res s' h
  refine ⟨hp, ?_⟩
  rcases hp with hp | hp | hp
  · left; simp [read_end_of_inline_content, ParserContent.consume, hp]
  · left; simp [read_end_of_inline_content, ParserContent.consume, hp]
  · right; simp [read_end_of_inline_content, ParserContent.consume, hp]

/-- Claim C4 witness: the statement applied to the inline run over the input
`hi`, which stops at end-of-input. -/
theorem c4_theorem_witness :
    ((⟨"hi".toList, ⟨2, 2, 0⟩⟩ : ParserContent).peek = none ∨
      (⟨"hi".toList, ⟨2, 2, 0⟩⟩ : ParserContent).peek = some '\n' ∨
      (⟨"hi".toList, ⟨2, 2, 0⟩⟩ : ParserContent).peek = some '}') ∧
    (read_end_of_inline_content ⟨"hi".toList, ⟨2, 2, 0⟩⟩ =
        .ok () (⟨"hi".toList, ⟨2, 2, 0⟩⟩ : ParserContent).advance ∨
      read_end_of_inline_content ⟨"hi".toList, ⟨2, 2, 0⟩⟩ =
        .err .UnexpectedRightBrace (⟨"hi".toList, ⟨2, 2, 0⟩⟩ : ParserContent).advance) :=
  c4_theorem 10 [] (Parser.new "hi") [.Str "hi"] ⟨"hi".toList, ⟨2, 2, 0⟩⟩ rfl

/-- Claim C1 counterexample: on `"#p[a b] hi"` — a completed key `a`
followed by a space, which is neither `]` nor `,` — the parser does not
return the ParseError `UnexpectedEOF`: it reaches the Rust `panic` branch of
`read_attributes` (modelled as `crash`), i.e. the process aborts instead of
returning an ordinary error result. -/
theorem c1_counterexample : Parser.call 100 "#p[a b] hi" = .crash := rfl

/-- Claim C1 (amended): after a completed key=value pair the value grammar
guarantees that the next character is `]` or `,`; end-of-input after a
completed key or pair fails with the ParseError `UnexpectedEOF` (shown on
`"#p[a"`); but a character that is neither `]` nor `,` at that point —
reachable only after a valueless key — makes the parser hit its
internal-error `panic` (a crash, not a ParseError), shown on
`"#p[a b] hi"`. -/
theorem c1_theorem :
    (∀ (fuel : Nat) (acc : String) (s : ParserContent) (v : String) (s' : ParserContent),
        read_attribute_value fuel acc s = .ok v s' →
        s'.peek = some ']' ∨ s'.peek = some ',') ∧
    Parser.call 100 "#p[a" = .err ⟨.UnexpectedEOF, ⟨5, 5, 0⟩, none, some "#p[a"⟩ ∧
    Parser.call 100 "#p[a b] hi" = .crash :=
  ⟨read_attribute_value_ok_peek, rfl, rfl⟩

/-- Claim C1 witness: the attribute-value statement applied to the concrete
value `a` terminated by `]`. -/
theorem c1_theorem_witness :
    (⟨"a]".toList, ⟨1, 1, 0⟩⟩ : ParserContent).peek = some ']' ∨
    (⟨"a]".toList, ⟨1, 1, 0⟩⟩ : ParserContent).peek = some ',' :=
  c1_theorem.1 10 "" (Parser.new "a]") "a" ⟨"a]".toList, ⟨1, 1, 0⟩⟩ rfl

end DMark

namespace DMark

/-- Claim C2 counterexample: for the failing input `"x"` the offending
character `x` sits at position `⟨0, 0, 0⟩` (index 0, column 0, line 0), but
the error returned by `Parser::call` carries position `⟨1, 1, 0⟩` — one past
the offending character, because `consume` advances before the `#` filter
rejects the character. -/
theorem c2_counterexample :
    Parser.call 100 "x" = .err ⟨.ExpectedHash, ⟨1, 1, 0⟩, none, some "x"⟩ ∧
    decide ((⟨1, 1, 0⟩ : Pos) = ⟨0, 0, 0⟩) = false := ⟨rfl, rfl⟩

/-- Claim C2 (amended): the ParseError carries the scanner position at the
moment of failure, not necessarily the position of the offending character:
an error raised through `consume` leaves the position one past the offending
character (index and column one greater, shown generally and on `"x"`),
while an error raised through a plain `peek` (such as `UnexpectedEOL`) sits
exactly on the offending character (shown on `"#p[x=a\n] hi"`, whose newline
is at column 6). -/
theorem c2_theorem :
    (∀ (s : ParserContent) (e : Error) (s' : ParserContent),
        s.consume = .err e s' →
        s'.pos.idx = s.pos.idx + 1 ∧ s'.pos.col_nr = s.pos.col_nr + 1) ∧
    Parser.call 100 "x" = .err ⟨.ExpectedHash, ⟨1, 1, 0⟩, none, some "x"⟩ ∧
    Parser.call 100 "#p[x=a\n] hi" =
      .err ⟨.UnexpectedEOL, ⟨6, 6, 0⟩, none, some "#p[x=a"⟩ := by
  refine ⟨?_, rfl, rfl⟩
  intro s e s' h
  unfold ParserContent.consume at h
  split at h
  · simp at h
  · next hpeek =>
    cases h
    simp [ParserContent.advance, Pos.advance, hpeek]

/-- Claim C2 witness: the `consume`-failure statement applied to the empty
scanner state. -/
theorem c2_theorem_witness :
    (⟨[], ⟨1, 1, 0⟩⟩ : ParserContent).pos.idx =
        (⟨[], ⟨0, 0, 0⟩⟩ : ParserContent).pos.idx + 1 ∧
    (⟨[], ⟨1, 1, 0⟩⟩ : ParserContent).pos.col_nr =
        (⟨[], ⟨0, 0, 0⟩⟩ : ParserContent).pos.col_nr + 1 :=
  c2_theorem.1 ⟨[], ⟨0, 0, 0⟩⟩ .UnexpectedEOF ⟨[], ⟨1, 1, 0⟩⟩ rfl

/-- Claim C3 counterexample: the successful parse of `"#p %foo{}"` contains
no empty Text node at all — the children of `p` are exactly one `foo`
element with no children, with no Text node before it. -/
theorem c3_counterexample :
    Parser.call 100 "#p %foo\x7b\x7d" = .ok [.Element "p" [] [.Element "foo" [] []]] ∧
    hasEmptyTextList [.Element "p" [] [.Element "foo" [] []]] = false := ⟨rfl, rfl⟩

/-- Claim C3 (amended): a plain-text run never emits an empty Text node:
`read_string_node` only grows its accumulator, and it is entered (from
`read_inline_nodes`) only when the next character is not `%`, `}`, a newline
or end-of-input, in which case the resulting Text content is nonempty; in
particular `"#p %foo{}"` parses to a `foo` element with no children and no
empty Text node before it. -/
theorem c3_theorem :
    (∀ (fuel : Nat) (acc : String) (s : ParserContent) (n : Node) (s' : ParserContent),
        read_string_node fuel acc s = .ok n s' →
        ∃ str : String, n = .Str str ∧ acc.length ≤ str.length) ∧
    (∀ (fuel : Nat) (s : ParserContent) (c : Char) (n : Node) (s' : ParserContent),
        s.peek = some c → c ≠ '\n' → c ≠ '}' → c ≠ '%' →
        read_string_node fuel "" s = .ok n s' →
        ∃ str : String, n = .Str str ∧ 0 < str.length) ∧
    Parser.call 100 "#p %foo\x7b\x7d" = .ok [.Element "p" [] [.Element "foo" [] []]] := by
  refine ⟨read_string_node_ok_len, ?_, rfl⟩
  intro fuel s c n s' hpeek h1 h2 h3 h
  match fuel with
  | 0 => simp [read_string_node] at h
  | fuel + 1 =>
    rw [read_string_node] at h
    split at h
    · next heq => rw [hpeek] at heq; cases heq
    · next heq =>
      rw [hpeek] at heq
      injection heq with hce
      exact absurd hce h1
    · next heq =>
      rw [hpeek] at heq
      injection heq with hce
      exact absurd hce h3
    · next heq =>
      rw [hpeek] at heq
      injection heq with hce
      exact absurd hce h2
    · obtain ⟨str, hstr, hlen⟩ := read_string_node_ok_len _ _ _ _ _ h
      refine ⟨str, hstr, ?_⟩
      rw [String.length_push] at hlen
      omega

/-- Claim C3 witness: the nonempty-text statement applied to the inline text
run over `hi`. -/
theorem c3_theorem_witness :
    ∃ str : String, Node.Str "hi" = .Str str ∧ 0 < str.length :=
  c3_theorem.2.1 10 (Parser.new "hi") 'h' (.Str "hi") ⟨"hi".toList, ⟨2, 2, 0⟩⟩
    rfl (by decide) (by decide) (by decide) rfl

/-- Claim C8 counterexample: the failure in `"#p hi\nx"` is on the second
line, i.e. 1-based line 2, but the rendered message says `line 1` — the
`Display` implementation prints the zero-based `pos.line_nr` unchanged, not
a 1-based line number. -/
theorem c8_counterexample :
    Parser.call 100 "#p hi\nx" = .err ⟨.ExpectedHash, ⟨7, 1, 1⟩, some "#p hi", some "x"⟩ ∧
    call_render 100 "#p hi\nx" =
      some "parse error at line 1, column 1: #ExpectedHash\n\n#p hi\nx\n\x1B[31m↑\x1B[0m" ∧
    string_starts_with
      "parse error at line 1, column 1: #ExpectedHash\n\n#p hi\nx\n\x1B[31m↑\x1B[0m"
      "parse error at line 2" = false := ⟨rfl, rfl, rfl⟩

/-- Claim C8 (amended): every rendered message names the error kind, the
zero-based line number and the zero-based column of the failure, in the
fixed header `parse error at line L, column C: #Kind`; shown generally and
on the failing parse of `"#p hi\nx"` (failure on zero-based line 1,
column 1). -/
theorem c8_theorem :
    (∀ e : ErrorWithContext, ∃ rest : String,
        e.render = "parse error at line " ++ nat_to_string e.pos.line_nr ++ ", column "
          ++ nat_to_string e.pos.col_nr ++ ": #" ++ errorDebugStr e.error ++ "\n\n" ++ rest) ∧
    call_render 100 "#p hi\nx" =
      some "parse error at line 1, column 1: #ExpectedHash\n\n#p hi\nx\n\x1B[31m↑\x1B[0m" :=
  ⟨fun e => ⟨_, rfl⟩, rfl⟩

end DMark
